import Mathlib

/-!
Verification of the Shellhacks2025 financial analytics engine and router.

Shallow embedding of the analytics engine in
`src/agents/banking_agent_a2a.py` (helper functions `_parse_iso`,
`_in_window`, `_flatten_txns`, `_recurring` and the tool function
`bank_window_summary_tool`), of its divergent copy
`bank_window_summary` in
`src/director_agent/agent_folder/banking_agent/agent.py`, and of the
window-injection logic of `src/common/router_consumer_a2a.py`
(`_today_window`, `RouterA2A._ensure_daily_window`, `RouterA2A.route`).

Modelling conventions:
* Python floats are modelled as exact rationals (`ℚ`); `round(x, 2)`
  is modelled as round-half-to-even at two decimals, which is Python's
  rounding mode on exact decimal values.
* Python strings used as timestamps are modelled as `List Char`; other
  strings as `String`.  Absent dictionary keys and `None` values are
  both modelled as `none`; Python truthiness (`or`, `if s:`) is
  modelled explicitly, with `none` and the empty string falsy.
* Exceptions are modelled as `Option`: a helper that catches all
  exceptions and returns `None` is a total function into `Option`.
* `datetime.fromisoformat` (standard library) is modelled by a
  concrete parser for the grammar
  `YYYY-MM-DD[THH[:MM[:SS]]][±HH:MM]` — the fragment of ISO-8601 the
  repository feeds it — together with field-range validation;
  aware `datetime` values compare by their absolute instant, computed
  with the standard civil-calendar day-number algorithm.
* Python's `sorted` (a stable sort) is modelled by `List.insertionSort`,
  which Mathlib proves stable; a stable sort's output is uniquely
  determined by the key order and the input order, so any stable sort
  models `sorted` faithfully.  `sorted(..., reverse=True)` becomes
  `insertionSort (fun a b => key b ≤ key a)`.
-/

namespace Shellhacks

/-! ## Python truthiness helpers -/

/-- Python `a or b` for two optional strings (`None` and `""` are falsy). -/
def pyOrS (a b : Option String) : Option String :=
  match a with
  | some s => if s = "" then b else some s
  | none => b

/-- Python `a or b` where the right operand is a (truthy or not) plain string,
so the result is always a string. -/
def pyOrStr (a : Option String) (b : String) : String :=
  match a with
  | some s => if s = "" then b else s
  | none => b

/-- Python `a or b` for two optional char-list timestamps. -/
def pyOrL (a b : Option (List Char)) : Option (List Char) :=
  match a with
  | some s => if s = [] then b else some s
  | none => b

/-! ## Rounding: Python `round(x, 2)` on exact decimals (half-to-even) -/

/-- The integer number of cents obtained by rounding `q * 100` half-to-even. -/
def r2int (q : ℚ) : ℤ :=
  let f : ℤ := Rat.floor (q * 100)
  let r : ℚ := q * 100 - f
  if r < 1/2 then f
  else if 1/2 < r then f + 1
  else if f % 2 = 0 then f else f + 1

/-- Python `round(x, 2)`: round to two decimal places, ties to even. -/
def round2 (q : ℚ) : ℚ := (r2int q : ℚ) / 100

/-! ## The `datetime` model -/

/-- A parsed `datetime`: civil fields plus an optional UTC offset in
minutes (`none` = naive). -/
structure DT where
  year : ℤ
  month : ℕ
  day : ℕ
  hour : ℕ
  minute : ℕ
  second : ℕ
  off : Option ℤ
deriving DecidableEq, Repr

/-- Day number of a civil date (days since 1970-01-01, Gregorian),
the standard "days from civil" algorithm. -/
def daysFromCivil (y : ℤ) (m d : ℕ) : ℤ :=
  let y2 : ℤ := if m ≤ 2 then y - 1 else y
  let era : ℤ := Int.fdiv y2 400
  let yoe : ℤ := y2 - era * 400
  let mp : ℤ := ((m : ℤ) + 9) % 12
  let doy : ℤ := Int.fdiv (153 * mp + 2) 5 + (d : ℤ) - 1
  let doe : ℤ := yoe * 365 + Int.fdiv yoe 4 - Int.fdiv yoe 100 + doy
  era * 146097 + doe - 719468

/-- Absolute instant (seconds since the epoch) of a datetime; an aware
datetime subtracts its UTC offset, which is how Python compares aware
datetimes.  (`_parse_iso` only ever produces aware values.) -/
def DT.instant (t : DT) : ℤ :=
  daysFromCivil t.year t.month t.day * 86400 +
    (t.hour : ℤ) * 3600 + (t.minute : ℤ) * 60 + (t.second : ℤ) -
    t.off.getD 0 * 60

/-! ## Model of `datetime.fromisoformat` -/

/-- Decode one ASCII decimal digit. -/
def digit? (c : Char) : Option ℕ :=
  if 48 ≤ c.toNat ∧ c.toNat ≤ 57 then some (c.toNat - 48) else none

/-- Parse exactly two digits (whole input). -/
def p2 : List Char → Option ℕ
  | [a, b] =>
    match digit? a, digit? b with
    | some x, some y => some (10 * x + y)
    | _, _ => none
  | _ => none

/-- Parse two digits at the front, return the rest. -/
def pD2 : List Char → Option (ℕ × List Char)
  | a :: b :: rest =>
    match digit? a, digit? b with
    | some x, some y => some (10 * x + y, rest)
    | _, _ => none
  | _ => none

/-- Parse four digits at the front, return the rest. -/
def pD4 : List Char → Option (ℕ × List Char)
  | a :: b :: c :: d :: rest =>
    match digit? a, digit? b, digit? c, digit? d with
    | some w, some x, some y, some z => some (1000 * w + 100 * x + 10 * y + z, rest)
    | _, _, _, _ => none
  | _ => none

/-- Parse a time-of-day `HH[:MM[:SS]]` (whole input). -/
def pTime (cs : List Char) : Option (ℕ × ℕ × ℕ) :=
  match pD2 cs with
  | some (h, []) => some (h, 0, 0)
  | some (h, ':' :: r1) =>
    match pD2 r1 with
    | some (mi, []) => some (h, mi, 0)
    | some (mi, ':' :: r2) =>
      match pD2 r2 with
      | some (s, []) => some (h, mi, s)
      | _ => none
    | _ => none
  | _ => none

/-- Gregorian leap year test. -/
def isLeap (y : ℤ) : Bool := (y % 4 = 0 && y % 100 ≠ 0) || y % 400 = 0

/-- Number of days in a month. -/
def daysInMonth (y : ℤ) (m : ℕ) : ℕ :=
  if m = 2 then (if isLeap y then 29 else 28)
  else if m = 4 ∨ m = 6 ∨ m = 9 ∨ m = 11 then 30
  else 31

/-- Parse the date-time body `YYYY-MM-DD[THH[:MM[:SS]]]` with
`datetime`'s field validation. -/
def pBody (cs : List Char) : Option (ℤ × ℕ × ℕ × ℕ × ℕ × ℕ) :=
  match pD4 cs with
  | some (y, '-' :: r1) =>
    match pD2 r1 with
    | some (mo, '-' :: r2) =>
      match pD2 r2 with
      | some (d, r3) =>
        match (match r3 with
               | [] => some (0, 0, 0)
               | 'T' :: r4 => pTime r4
               | _ => none) with
        | some (h, mi, s) =>
          if 1 ≤ y ∧ 1 ≤ mo ∧ mo ≤ 12 ∧ 1 ≤ d ∧ d ≤ daysInMonth y mo ∧
              h ≤ 23 ∧ mi ≤ 59 ∧ s ≤ 59 then
            some ((y : ℤ), mo, d, h, mi, s)
          else none
        | none => none
      | _ => none
    | _ => none
  | _ => none

/-- Split a trailing `±HH:MM` UTC-offset suffix (sign and raw digit
pairs) from the input, if present. -/
def splitTZ (cs : List Char) : List Char × Option (Char × List Char × List Char) :=
  match cs.reverse with
  | m2 :: m1 :: ':' :: h2 :: h1 :: sgn :: rest =>
    if sgn = '+' || sgn = '-' then (rest.reverse, some (sgn, [h1, h2], [m1, m2]))
    else (cs, none)
  | _ => (cs, none)

/-- Model of `datetime.fromisoformat` on the grammar
`YYYY-MM-DD[THH[:MM[:SS]]][±HH:MM]`; `none` models a raised
`ValueError`. -/
def fromisoformat (cs : List Char) : Option DT :=
  let (body, tz) := splitTZ cs
  match tz with
  | none =>
    match pBody body with
    | some (y, mo, d, h, mi, s) => some ⟨y, mo, d, h, mi, s, none⟩
    | none => none
  | some (sgn, hs, ms) =>
    match pBody body, p2 hs, p2 ms with
    | some (y, mo, d, h, mi, s), some oh, some om =>
      if oh ≤ 23 ∧ om ≤ 59 then
        some ⟨y, mo, d, h, mi, s,
          some ((if sgn = '-' then -1 else 1) * ((oh : ℤ) * 60 + om))⟩
      else none
    | _, _, _ => none

/-- Python `ts.endswith("Z")`. -/
def endsWithZ (cs : List Char) : Bool :=
  match cs.reverse with
  | c :: _ => decide (c = 'Z')
  | [] => false

/-- Python `ts.replace("Z", "+00:00")` (replaces every occurrence). -/
def replaceZ : List Char → List Char
  | [] => []
  | c :: cs => (if c = 'Z' then ['+', '0', '0', ':', '0', '0'] else [c]) ++ replaceZ cs

/-- `_parse_iso` (identical in both source files): normalize a trailing
`Z` to `+00:00`, parse, give naive results a UTC offset; any parse
failure yields `none` instead of an error. -/
def parse_iso (ts : List Char) : Option DT :=
  if endsWithZ ts then fromisoformat (replaceZ ts)
  else
    match fromisoformat ts with
    | none => none
    | some dt =>
      match dt.off with
      | none => some { dt with off := some 0 }
      | some _ => some dt

/-- `_in_window` (identical in both source files): a missing timestamp
is never in the window; each present bound is tested strictly for
rejection, hence inclusively for admission. -/
def in_window (dt : Option DT) (sinceDT untilDT : Option DT) : Bool :=
  match dt with
  | none => false
  | some t =>
    match sinceDT with
    | some s => if t.instant < s.instant then false else
        match untilDT with
        | some u => if u.instant < t.instant then false else true
        | none => true
    | none =>
      match untilDT with
      | some u => if u.instant < t.instant then false else true
      | none => true

/-! ## Ledger data model (the JSON shapes the engine reads defensively) -/

structure Merchant where
  name : Option String
  category : Option String
deriving DecidableEq

structure Txn where
  posted_at : Option (List Char)
  created_at : Option (List Char)
  amount : Option ℚ
  type : Option String
  description : Option String
  merchant : Option Merchant
  category : Option String
deriving DecidableEq

structure RecurringPayment where
  name : Option String
  amount : Option ℚ
  frequency : Option String
  next_charge : Option (List Char)
deriving DecidableEq

structure Account where
  nickname : Option String
  account_type : Option String
  transactions : Option (List Txn)
  recurring_payments : Option (List RecurringPayment)
deriving DecidableEq

structure UserData where
  accounts : List Account
deriving DecidableEq

structure BankData where
  user : Option UserData
deriving DecidableEq

/-- A transaction tagged with its owning account label (`_account`). -/
structure FlatTxn where
  txn : Txn
  account : Option String
deriving DecidableEq

/-- `bank.get("user", {}).get("accounts", [])`. -/
def accountsOf (bank : BankData) : List Account :=
  match bank.user with
  | some u => u.accounts
  | none => []

/-- `_flatten_txns` (identical in both source files). -/
def flatten_txns (bank : BankData) : List FlatTxn :=
  (accountsOf bank).flatMap fun acct =>
    (acct.transactions.getD []).map fun t => ⟨t, pyOrS acct.nickname acct.account_type⟩

/-- One entry of the `recurring` output. -/
structure RecOut where
  account : Option String
  name : Option String
  amount : Option ℚ
  frequency : Option String
  next_charge : Option (List Char)
deriving DecidableEq

/-- `_recurring` (identical in both source files). -/
def recurringOf (bank : BankData) : List RecOut :=
  (accountsOf bank).flatMap fun acct =>
    (acct.recurring_payments.getD []).map fun r =>
      ⟨pyOrS acct.nickname acct.account_type, r.name, r.amount, r.frequency, r.next_charge⟩

/-! ## Admission into spend aggregation -/

/-- `_parse_iso(s) if s else None`. -/
def optParse (o : Option (List Char)) : Option DT :=
  match o with
  | some s => if s = [] then none else parse_iso s
  | none => none

/-- `t.get("posted_at") or t.get("created_at")`. -/
def effTs (t : Txn) : Option (List Char) := pyOrL t.posted_at t.created_at

/-- Effective parsed timestamp of a transaction (A2A agent). -/
def effDT (t : Txn) : Option DT := optParse (effTs t)

/-- `(t.get("type") or "").lower() == "debit"`. -/
def isDebitStr (t : Txn) : Bool := (pyOrStr t.type "").toLower = "debit"

/-- The loop's two `continue` guards, as a single admission predicate. -/
def admitPred (sinceDT untilDT : Option DT) (ft : FlatTxn) : Bool :=
  in_window (effDT ft.txn) sinceDT untilDT && isDebitStr ft.txn

/-- The records the loop actually processes (`debit_txns`, in order). -/
def admittedOf (l : List FlatTxn) (sinceDT untilDT : Option DT) : List FlatTxn :=
  l.filter (admitPred sinceDT untilDT)

/-- `abs(float(t.get("amount", 0.0)))`. -/
def amtF (ft : FlatTxn) : ℚ := |ft.txn.amount.getD 0|

/-! ## Keyed aggregation buckets -/

structure Bucket where
  key : String
  spend : ℚ
  count : ℕ
deriving DecidableEq

/-- `d.setdefault(k, empty)` + in-place accumulation, on an
insertion-ordered dict modelled as an association list. -/
def addBucket (l : List Bucket) (k : String) (a : ℚ) : List Bucket :=
  match l with
  | [] => [⟨k, a, 1⟩]
  | b :: bs => if b.key = k then ⟨k, b.spend + a, b.count + 1⟩ :: bs else b :: addBucket bs k a

/-- `(t.get("merchant") or {}).get("name") or (t.get("description") or "unknown").strip()`. -/
def merchKey (t : Txn) : String :=
  pyOrStr (t.merchant.bind Merchant.name) ((pyOrStr t.description "unknown").trim)

/-- `(t.get("category") or (t.get("merchant") or {}).get("category") or "uncategorized").strip()`. -/
def catKey (t : Txn) : String :=
  (pyOrStr (pyOrS t.category (t.merchant.bind Merchant.category)) "uncategorized").trim

/-- The aggregation pass over the admitted records. -/
def bucketsBy (key : Txn → String) (adm : List FlatTxn) : List Bucket :=
  adm.foldl (fun l ft => addBucket l (key ft.txn) (amtF ft)) []

/-! ## Stable descending sort (Python `sorted(..., reverse=True)`) -/

/-- Descending-by-key comparison. -/
def keyGE (key : α → ℚ) (a b : α) : Prop := key b ≤ key a

instance (key : α → ℚ) : DecidableRel (keyGE key) := fun a b =>
  inferInstanceAs (Decidable (key b ≤ key a))

instance (key : α → ℚ) : IsTotal α (keyGE key) := ⟨fun a b => le_total (key b) (key a)⟩

instance (key : α → ℚ) : IsTrans α (keyGE key) :=
  ⟨fun _ _ _ h1 h2 => le_trans h2 h1⟩

/-- Python's stable descending sort by a rational key. -/
def sortDesc (key : α → ℚ) (l : List α) : List α := l.insertionSort (keyGE key)

/-! ## Anomaly detection -/

structure Anom where
  amount : ℚ
  description : Option String
  merchant : Option String
  posted_at : Option (List Char)
  account : Option String
deriving DecidableEq

/-- The anomaly record built for a flagged transaction. -/
def mkAnom (ft : FlatTxn) : Anom :=
  ⟨round2 (amtF ft), ft.txn.description, ft.txn.merchant.bind Merchant.name,
    effTs ft.txn, ft.account⟩

/-- `statistics.mean`. -/
def meanOf (ds : List ℚ) : ℚ := ds.sum / ds.length

/-- Population variance; the source uses
`statistics.pstdev(debits) if len(debits) > 1 else 0.0`, so the
variance is taken as `0` for fewer than two samples. -/
def pvarOf (ds : List ℚ) : ℚ :=
  if 1 < ds.length then (ds.map fun x => (x - meanOf ds) ^ 2).sum / ds.length else 0

/-- Decides `amt >= max(mean + 2*pstdev, 500.0)` over `ℚ` (the standard
deviation is eliminated by squaring; see `anomalyTest_iff_real`). -/
def anomalyTest (a m v : ℚ) : Bool :=
  decide (500 ≤ a) && decide (m ≤ a) && decide (4 * v ≤ (a - m) ^ 2)

/-- The `if debits:` anomaly block: threshold the 10 largest-magnitude
admitted records (identical in both source files). -/
def anomaliesOf (adm : List FlatTxn) : List Anom :=
  if adm = [] then []
  else
    let ds := adm.map amtF
    (((sortDesc amtF adm).take 10).filter fun ft =>
        anomalyTest (amtF ft) (meanOf ds) (pvarOf ds)).map mkAnom

/-- `{"merchant"/"category": k, "spend": round(v, 2), "count": c}`:
the per-bucket display rounding. -/
def roundB (b : Bucket) : Bucket := { b with spend := round2 b.spend }

/-! ## Findings and envelope -/

structure Totals where
  spend : ℚ
  count : ℕ
deriving DecidableEq

structure Findings where
  totals : Totals
  byMerchant : List Bucket
  byCategory : List Bucket
  recurring : List RecOut
  anomalies : List Anom
deriving DecidableEq

structure Envelope where
  status : String
  findings : Findings
  summary : String
  sms : String
  error : Option String
  traceId : Option String
deriving DecidableEq

/-! ## String formatting (`f"{x:,.2f}"`, captions) -/

/-- The decimal digit character of `k % 10`. -/
def dch (k : ℕ) : Char :=
  match k % 10 with
  | 0 => '0' | 1 => '1' | 2 => '2' | 3 => '3' | 4 => '4'
  | 5 => '5' | 6 => '6' | 7 => '7' | 8 => '8' | _ => '9'

/-- Two-digit zero-padded print of `n ≤ 99`. -/
def pad2 (n : ℕ) : List Char := [dch (n / 10), dch n]

/-- Four-digit zero-padded print of `n ≤ 9999`. -/
def pad4 (n : ℕ) : List Char := [dch (n / 1000), dch (n / 100), dch (n / 10), dch n]

/-- Insert thousands separators into a reversed digit list. -/
def commaRev : List Char → List Char
  | a :: b :: c :: d :: rest => a :: b :: c :: ',' :: commaRev (d :: rest)
  | l => l
termination_by l => l.length

/-- Comma-grouped decimal print of a natural number. -/
def commaGroup (n : ℕ) : String := String.mk ((commaRev (toString n).toList.reverse).reverse)

/-- Python `f"{q:,.2f}"` on an exact decimal. -/
def fmtMoney (q : ℚ) : String :=
  let c : ℤ := r2int q
  let sgn := if c < 0 then "-" else ""
  let n := c.natAbs
  sgn ++ commaGroup (n / 100) ++ "." ++ String.mk (pad2 (n % 100))

/-- The window caption: `last N days` when both bounds are present
(`N = (until - since).days or 1`), else `selected window`. -/
def captionOf (sinceDT untilDT : Option DT) : String :=
  match sinceDT, untilDT with
  | some s, some u =>
    let days := Int.fdiv (u.instant - s.instant) 86400
    let days := if days = 0 then 1 else days
    "last " ++ toString days ++ " days"
  | _, _ => "selected window"

/-! ## The A2A analytics engine (`bank_window_summary_tool`) -/

structure Window where
  since : Option (List Char)
  until_ : Option (List Char)
deriving DecidableEq

/-- A2A lower bound: `_parse_iso(since_s) if since_s else None`. -/
def sinceBound (w : Option Window) : Option DT :=
  match w with
  | some win => optParse win.since
  | none => none

/-- A2A upper bound. -/
def untilBound (w : Option Window) : Option DT :=
  match w with
  | some win => optParse win.until_
  | none => none

/-- The set of records the A2A engine admits for a ledger and window. -/
def admittedTx (bank : BankData) (window : Option Window) : List FlatTxn :=
  admittedOf (flatten_txns bank) (sinceBound window) (untilBound window)

/-- `_parse_iso(r.get("next_charge") or "")`. -/
def rcDT (r : RecOut) : Option DT := parse_iso (r.next_charge.getD [])

/-- The A2A recurring filter:
`_in_window(...) or r.get("next_charge") is None`. -/
def rcKeep (sinceDT untilDT : Option DT) (r : RecOut) : Bool :=
  in_window (rcDT r) sinceDT untilDT || decide (r.next_charge = none)

/-- `(currency or "USD").upper()`. -/
def currNorm (currency : String) : String :=
  (if currency = "" then "USD" else currency).toUpper

/-- The `summary` sentence. -/
def summaryText (caption curr : String) (totals : Totals) (nAnoms : ℕ) : String :=
  "In the " ++ caption ++ " you spent " ++ curr ++ " " ++ fmtMoney totals.spend ++
    " across " ++ toString totals.count ++ " transactions." ++
    (if nAnoms ≠ 0 then " Flagged " ++ toString nAnoms ++ " potential anomalies." else "")

/-- The `sms` sentence. -/
def smsText (caption curr : String) (totals : Totals) : String :=
  caption.capitalize ++ " spend " ++ curr ++ " " ++ fmtMoney totals.spend ++ "; " ++
    toString totals.count ++ " txns."

/-- `bank_window_summary_tool` of `src/agents/banking_agent_a2a.py`
(inline-ledger path; `json_path` loading is I/O glue outside the model). -/
def bank_window_summary_tool (bank : BankData) (window : Option Window)
    (currency : String) (traceId : Option String) : Envelope :=
  let sinceDT := sinceBound window
  let untilDT := untilBound window
  let curr := currNorm currency
  let adm := admittedOf (flatten_txns bank) sinceDT untilDT
  let ds := adm.map amtF
  let totals : Totals := ⟨round2 ds.sum, ds.length⟩
  let anomalies := anomaliesOf adm
  let bm := (sortDesc Bucket.spend (bucketsBy merchKey adm)).map roundB
  let bc := (sortDesc Bucket.spend (bucketsBy catKey adm)).map roundB
  let recs := (recurringOf bank).filter (rcKeep sinceDT untilDT)
  let caption := captionOf sinceDT untilDT
  ⟨"ok", ⟨totals, bm, bc, recs, anomalies⟩,
    summaryText caption curr totals anomalies.length,
    smsText caption curr totals, none, traceId⟩

/-! ## The director-agent copy (`bank_window_summary`) -/

/-- Director lower bound: `_parse_iso((window or {}).get("since") or "")`. -/
def sinceBoundD (w : Option Window) : Option DT :=
  parse_iso ((w.bind Window.since).getD [])

/-- Director upper bound. -/
def untilBoundD (w : Option Window) : Option DT :=
  parse_iso ((w.bind Window.until_).getD [])

/-- Director effective timestamp:
`_parse_iso(t.get("posted_at") or t.get("created_at") or "")`. -/
def effDT_D (t : Txn) : Option DT := parse_iso ((effTs t).getD [])

/-- Director admission predicate. -/
def admitPredD (sinceDT untilDT : Option DT) (ft : FlatTxn) : Bool :=
  in_window (effDT_D ft.txn) sinceDT untilDT && isDebitStr ft.txn

/-- `bank_window_summary` of
`src/director_agent/agent_folder/banking_agent/agent.py`
(inline-ledger path; the built-in `BANK_JSON` fallback is data, not logic).
Differences from the A2A copy: window bounds and effective timestamps go
through `or ""`, buckets are rounded before sorting, and `recurring` is
not filtered by the window. -/
def bank_window_summary (bank : BankData) (window : Option Window)
    (currency : String) (traceId : Option String) : Envelope :=
  let sinceDT := sinceBoundD window
  let untilDT := untilBoundD window
  let curr := currNorm currency
  let adm := (flatten_txns bank).filter (admitPredD sinceDT untilDT)
  let ds := adm.map amtF
  let totals : Totals := ⟨round2 ds.sum, ds.length⟩
  let anomalies := anomaliesOf adm
  let bm := sortDesc Bucket.spend ((bucketsBy merchKey adm).map roundB)
  let bc := sortDesc Bucket.spend ((bucketsBy catKey adm).map roundB)
  let recs := recurringOf bank
  let caption := captionOf sinceDT untilDT
  ⟨"ok", ⟨totals, bm, bc, recs, anomalies⟩,
    summaryText caption curr totals anomalies.length,
    smsText caption curr totals, none, traceId⟩

/-! ## Router window injection (`router_consumer_a2a.py`) -/

def DAILY_KWS : List String :=
  ["daily report", "today report", "todays report", "today's report",
   "daily summary", "today summary", "today's summary", "summary for today"]

structure Payload where
  query : Option String
  window : Option Window
  tz : Option String
  currency : Option String
  traceId : Option String
deriving DecidableEq

/-- A civil date (what `datetime.now().date()` yields). -/
structure Date where
  year : ℕ
  month : ℕ
  day : ℕ
deriving DecidableEq

/-- `datetime(y, m, d, h, mi, s).isoformat()`. -/
def isoDT (dt : Date) (h mi s : ℕ) : List Char :=
  pad4 dt.year ++ '-' :: pad2 dt.month ++ '-' :: pad2 dt.day ++
    'T' :: pad2 h ++ ':' :: pad2 mi ++ ':' :: pad2 s

/-- `_today_window`: today 00:00:00 through today 23:59:59, local wall
clock (the `tz_str` argument is ignored by the source). -/
def today_window (today : Date) : Window :=
  ⟨some (isoDT today 0 0 0), some (isoDT today 23 59 59)⟩

/-- `RouterA2A._ensure_daily_window`: inject the today-window when the
payload carries none. -/
def ensure_daily_window (today : Date) (p : Payload) : Payload :=
  if p.window = none then { p with window := some (today_window today) } else p

/-- Python `needle in hay` on strings. -/
def listContains (needle hay : List Char) : Bool :=
  hay.tails.any fun t => needle.isPrefixOf t

/-- `(payload.get("query") or payload.get("prompt") or "").strip().lower()`
(`query` models the query-or-prompt chain). -/
def routeQuery (p : Payload) : String := (pyOrStr p.query "").trim.toLower

/-- The daily fast-path of `RouterA2A.route`: when a daily keyword
matches, the single payload handed to the fan-out dispatch
(`run_agent_once`) is `_ensure_daily_window(payload)`; otherwise the
daily path is not taken. -/
def route_daily_dispatch (today : Date) (p : Payload) : Option Payload :=
  let q := routeQuery p
  if DAILY_KWS.any (fun kw => listContains kw.toList q.toList) then
    some (ensure_daily_window today p)
  else none

/-! ## Specification-side predicates -/

/-- The spec's notion of "the timestamp lies within `[since, until]`,
inclusive on each bound that is present". -/
def InWindowProp (dt : DT) (sinceDT untilDT : Option DT) : Prop :=
  (∀ s ∈ sinceDT, s.instant ≤ dt.instant) ∧ (∀ u ∈ untilDT, dt.instant ≤ u.instant)

/-- The order in which distinct keys are first seen during an
aggregation pass. -/
def firstSeen (ks : List String) : List String :=
  ks.foldl (fun acc k => if k ∈ acc then acc else acc ++ [k]) []

/-! ## Concrete test ledgers -/

/-- A two-debit ledger whose per-bucket rounding differs from the rounded
total: two debits of `1.004` at distinct merchants; `round(2.008, 2) =
2.01` but each bucket rounds to `1.00`. -/
def cexBankRounding : BankData :=
  ⟨some ⟨[⟨some "Everyday", some "checking",
    some [⟨some "2025-07-15T09:58:00".toList, none, some (1004/1000), some "debit",
            some "Purchase - A", some ⟨some "A", some "X"⟩, some "X"⟩,
          ⟨some "2025-07-16T09:58:00".toList, none, some (1004/1000), some "debit",
            some "Purchase - B", some ⟨some "B", some "Y"⟩, some "Y"⟩], some []⟩]⟩⟩

/-- A two-debit ledger on which the two copies return different
`byMerchant` orders: raw spends `100.001` (merchant `B`, first seen)
and `100.004` (merchant `A`) both display as `100.00`; the A2A copy
sorts before rounding (`A` first), the director copy sorts after
rounding, where the tie keeps first-seen order (`B` first). -/
def cexBankOrder : BankData :=
  ⟨some ⟨[⟨some "Everyday", some "checking",
    some [⟨some "2025-07-15T09:58:00".toList, none, some (100001/1000), some "debit",
            some "Purchase - B", some ⟨some "B", some "X"⟩, some "X"⟩,
          ⟨some "2025-07-16T09:58:00".toList, none, some (100004/1000), some "debit",
            some "Purchase - A", some ⟨some "A", some "Y"⟩, some "Y"⟩], some []⟩]⟩⟩

/-- A ledger with a single recurring payment whose `next_charge` is
absent (`None`). -/
def cexBankRecurring : BankData :=
  ⟨some ⟨[⟨some "Everyday", some "checking", some [],
    some [⟨some "Gym", some (-10), some "monthly", none⟩]⟩]⟩⟩

/-- A ledger with two equal-spend merchants (`B` first seen, then `A`),
for exercising tie-stability of the bucket sort. -/
def cexBankTie : BankData :=
  ⟨some ⟨[⟨some "Everyday", some "checking",
    some [⟨some "2025-07-15T09:58:00".toList, none, some 5, some "debit",
            some "Purchase - B", some ⟨some "B", some "X"⟩, some "X"⟩,
          ⟨some "2025-07-16T09:58:00".toList, none, some 5, some "debit",
            some "Purchase - A", some ⟨some "A", some "Y"⟩, some "Y"⟩], some []⟩]⟩⟩

/-! ## Basic lemmas -/

theorem in_window_iff (dt : Option DT) (sinceDT untilDT : Option DT) :
    in_window dt sinceDT untilDT = true ↔
      ∃ t, dt = some t ∧ InWindowProp t sinceDT untilDT := by
  cases dt with
  | none => simp [in_window]
  | some t =>
    cases sinceDT <;> cases untilDT <;>
      simp [in_window, InWindowProp] <;>
      split_ifs <;> simp_all <;> omega

theorem mem_admittedOf {l : List FlatTxn} {sinceDT untilDT : Option DT} {ft : FlatTxn} :
    ft ∈ admittedOf l sinceDT untilDT ↔
      ft ∈ l ∧ admitPred sinceDT untilDT ft = true := by
  simp [admittedOf, List.mem_filter]

/-! ## C10: a record with no parsable effective timestamp is never admitted -/

/-- **C10.** For every window, including a fully open one, a transaction
whose `posted_at` and `created_at` both fail to produce a timestamp
(missing, empty, or unparsable) has no effective timestamp, so the
in-window test rejects it and it is excluded from spend aggregation of
every transaction list. -/
theorem optParse_pyOrL_none {a b : Option (List Char)}
    (ha : optParse a = none) (hb : optParse b = none) :
    optParse (pyOrL a b) = none := by
  unfold pyOrL
  cases a with
  | none => exact hb
  | some s =>
    by_cases hs : s = []
    · simp only [hs, if_pos rfl]
      exact hb
    · simp only [if_neg hs]
      unfold optParse at ha ⊢
      simpa [hs] using ha

theorem C10_no_timestamp_never_admitted (ft : FlatTxn) (sinceDT untilDT : Option DT)
    (hp : optParse ft.txn.posted_at = none) (hc : optParse ft.txn.created_at = none) :
    effDT ft.txn = none ∧ admitPred sinceDT untilDT ft = false ∧
      ∀ l : List FlatTxn, ft ∉ admittedOf l sinceDT untilDT := by
  have heff : effDT ft.txn = none := optParse_pyOrL_none hp hc
  refine ⟨heff, ?_, ?_⟩
  · unfold admitPred
    rw [heff]
    rfl
  · intro l hmem
    have := (mem_admittedOf.mp hmem).2
    unfold admitPred at this
    rw [heff] at this
    simp [in_window] at this

/-- Witness for C10 at a concrete record: an unparsable `posted_at` and a
missing `created_at` are rejected even by the fully open window. -/
theorem C10_witness :
    admitPred none none ⟨⟨some "garbage".toList, none, some 42, some "debit",
      none, none, none⟩, none⟩ = false := by
  have h := C10_no_timestamp_never_admitted
    ⟨⟨some "garbage".toList, none, some 42, some "debit", none, none, none⟩, none⟩
    none none (by with_unfolding_all rfl) rfl
  exact h.2.1

/-! ## Bucket accumulation lemmas -/

theorem addBucket_spend_sum (l : List Bucket) (k : String) (a : ℚ) :
    ((addBucket l k a).map Bucket.spend).sum = (l.map Bucket.spend).sum + a := by
  induction l with
  | nil => simp [addBucket]
  | cons b bs ih =>
    by_cases hb : b.key = k
    · simp [addBucket, hb]
      ring
    · simp [addBucket, hb, ih]
      ring

theorem addBucket_count_sum (l : List Bucket) (k : String) (a : ℚ) :
    ((addBucket l k a).map Bucket.count).sum = (l.map Bucket.count).sum + 1 := by
  induction l with
  | nil => simp [addBucket]
  | cons b bs ih =>
    by_cases hb : b.key = k
    · simp [addBucket, hb]
      omega
    · simp [addBucket, hb, ih]
      omega

theorem bucketsBy_foldl_spend (key : Txn → String) (adm : List FlatTxn) :
    ∀ init : List Bucket,
      (((adm.foldl (fun l ft => addBucket l (key ft.txn) (amtF ft)) init)).map
        Bucket.spend).sum =
      (init.map Bucket.spend).sum + (adm.map amtF).sum := by
  induction adm with
  | nil => intro init; simp
  | cons ft fts ih =>
    intro init
    simp only [List.foldl_cons, List.map_cons, List.sum_cons]
    rw [ih, addBucket_spend_sum]
    ring

theorem bucketsBy_foldl_count (key : Txn → String) (adm : List FlatTxn) :
    ∀ init : List Bucket,
      (((adm.foldl (fun l ft => addBucket l (key ft.txn) (amtF ft)) init)).map
        Bucket.count).sum =
      (init.map Bucket.count).sum + adm.length := by
  induction adm with
  | nil => intro init; simp
  | cons ft fts ih =>
    intro init
    simp only [List.foldl_cons, List.length_cons]
    rw [ih, addBucket_count_sum]
    omega

theorem bucketsBy_spend_sum (key : Txn → String) (adm : List FlatTxn) :
    ((bucketsBy key adm).map Bucket.spend).sum = (adm.map amtF).sum := by
  simpa using bucketsBy_foldl_spend key adm []

theorem bucketsBy_count_sum (key : Txn → String) (adm : List FlatTxn) :
    ((bucketsBy key adm).map Bucket.count).sum = adm.length := by
  simpa using bucketsBy_foldl_count key adm []

/-! ## Stable-sort facts -/

theorem sortDesc_perm (key : α → ℚ) (l : List α) : (sortDesc key l).Perm l :=
  List.perm_insertionSort _ l

theorem sortDesc_sorted (key : α → ℚ) (l : List α) :
    (sortDesc key l).Pairwise (keyGE key) :=
  List.sorted_insertionSort _ l

theorem sortDesc_map_sum (key : α → ℚ) (f : α → ℚ) (l : List α) :
    ((sortDesc key l).map f).sum = (l.map f).sum :=
  ((sortDesc_perm key l).map f).sum_eq

theorem sortDesc_map_count_sum (key : α → ℚ) (f : α → ℕ) (l : List α) :
    ((sortDesc key l).map f).sum = (l.map f).sum :=
  ((sortDesc_perm key l).map f).sum_eq

/-! ## C1: admission iff in-window and debit; credits touch nothing -/

/-- **C1.** A record of the flattened ledger is admitted iff its
effective timestamp exists and lies inclusively within the window
bounds that are present AND its type lowercases to `"debit"`; the
totals count and spend, the bucket counts, and the anomaly records are
all built exclusively from the admitted records. -/
theorem C1_admission (bank : BankData) (window : Option Window)
    (currency : String) (traceId : Option String) (ft : FlatTxn)
    (hft : ft ∈ flatten_txns bank) :
    (ft ∈ admittedTx bank window ↔
      ((∃ t, effDT ft.txn = some t ∧
          InWindowProp t (sinceBound window) (untilBound window)) ∧
        (pyOrStr ft.txn.type "").toLower = "debit")) ∧
    (bank_window_summary_tool bank window currency traceId).findings.totals.count =
      (admittedTx bank window).length ∧
    (bank_window_summary_tool bank window currency traceId).findings.totals.spend =
      round2 (((admittedTx bank window).map amtF).sum) ∧
    ((bank_window_summary_tool bank window currency traceId).findings.byMerchant.map
      Bucket.count).sum = (admittedTx bank window).length ∧
    ((bank_window_summary_tool bank window currency traceId).findings.byCategory.map
      Bucket.count).sum = (admittedTx bank window).length ∧
    (∀ a ∈ (bank_window_summary_tool bank window currency traceId).findings.anomalies,
      ∃ t ∈ admittedTx bank window, a = mkAnom t) := by
  refine ⟨?_, ?_, ?_, ?_, ?_, ?_⟩
  · rw [show admittedTx bank window =
      admittedOf (flatten_txns bank) (sinceBound window) (untilBound window) from rfl,
      mem_admittedOf]
    unfold admitPred
    rw [Bool.and_eq_true, in_window_iff]
    simp [hft, isDebitStr]
  · show ((admittedTx bank window).map amtF).length = _
    simp [List.length_map]
  · rfl
  · show (((sortDesc Bucket.spend (bucketsBy merchKey (admittedTx bank window))).map
      roundB).map Bucket.count).sum = _
    rw [List.map_map]
    have : (Bucket.count ∘ roundB) = Bucket.count := funext fun b => rfl
    rw [this, sortDesc_map_count_sum, bucketsBy_count_sum]
  · show (((sortDesc Bucket.spend (bucketsBy catKey (admittedTx bank window))).map
      roundB).map Bucket.count).sum = _
    rw [List.map_map]
    have : (Bucket.count ∘ roundB) = Bucket.count := funext fun b => rfl
    rw [this, sortDesc_map_count_sum, bucketsBy_count_sum]
  · intro a ha
    show ∃ t ∈ admittedTx bank window, a = mkAnom t
    have ha2 : a ∈ anomaliesOf (admittedTx bank window) := ha
    unfold anomaliesOf at ha2
    by_cases hadm : admittedTx bank window = []
    · rw [if_pos hadm] at ha2
      simp at ha2
    · rw [if_neg hadm] at ha2
      simp only [List.mem_map] at ha2
      obtain ⟨ft2, hft2, rfl⟩ := ha2
      refine ⟨ft2, ?_, rfl⟩
      have h1 : ft2 ∈ (sortDesc amtF (admittedTx bank window)).take 10 :=
        List.mem_of_mem_filter hft2
      have h2 : ft2 ∈ sortDesc amtF (admittedTx bank window) :=
        List.take_subset _ _ h1
      exact (sortDesc_perm amtF _).subset h2

set_option maxRecDepth 4000 in
/-- Witness for C1 at a concrete two-record ledger (one in-window debit,
one in-window credit): the debit is admitted, the credit is not. -/
theorem C1_witness :
    (⟨⟨some "2025-07-22T21:52:00".toList, none, some (-4253/100), some "debit",
        none, none, some "Retail"⟩, some "Everyday"⟩ : FlatTxn) ∈
      admittedTx
        ⟨some ⟨[⟨some "Everyday", none,
          some [⟨some "2025-07-22T21:52:00".toList, none, some (-4253/100), some "debit",
                  none, none, some "Retail"⟩,
                ⟨some "2025-07-15T09:58:00".toList, none, some (81185/100), some "credit",
                  none, none, some "Groceries"⟩], none⟩]⟩⟩ none := by
  have h := C1_admission
    ⟨some ⟨[⟨some "Everyday", none,
      some [⟨some "2025-07-22T21:52:00".toList, none, some (-4253/100), some "debit",
              none, none, some "Retail"⟩,
            ⟨some "2025-07-15T09:58:00".toList, none, some (81185/100), some "credit",
              none, none, some "Groceries"⟩], none⟩]⟩⟩ none "USD" none
    ⟨⟨some "2025-07-22T21:52:00".toList, none, some (-4253/100), some "debit",
        none, none, some "Retail"⟩, some "Everyday"⟩
    (by simp [flatten_txns, accountsOf, pyOrS])
  refine h.1.mpr ⟨⟨⟨2025, 7, 22, 21, 52, 0, some 0⟩, ?_, ?_, ?_⟩, by with_unfolding_all rfl⟩
  · with_unfolding_all rfl
  · intro s hs
    simp [sinceBound] at hs
  · intro u hu
    simp [untilBound] at hu

/-! ## C7: timestamp parsing never fails the request -/

theorem endsWithZ_exists_concat {ts : List Char} (h : endsWithZ ts = true) :
    ∃ xs, ts = xs ++ ['Z'] := by
  unfold endsWithZ at h
  cases hrev : ts.reverse with
  | nil => rw [hrev] at h; simp at h
  | cons c tl =>
    rw [hrev] at h
    have hc : c = 'Z' := by
      by_cases hcz : c = 'Z'
      · exact hcz
      · simp [hcz] at h
    refine ⟨tl.reverse, ?_⟩
    have := congrArg List.reverse hrev
    simpa [hc] using this

theorem replaceZ_append (xs ys : List Char) :
    replaceZ (xs ++ ys) = replaceZ xs ++ replaceZ ys := by
  induction xs with
  | nil => rfl
  | cons c cs ih => simp [replaceZ, ih]

theorem fromisoformat_utc_suffix (ys : List Char) (dt : DT)
    (h : fromisoformat (ys ++ ['+', '0', '0', ':', '0', '0']) = some dt) :
    dt.off = some 0 := by
  have hrev : (ys ++ ['+', '0', '0', ':', '0', '0']).reverse =
      '0' :: '0' :: ':' :: '0' :: '0' :: '+' :: ys.reverse := by
    simp
  unfold fromisoformat splitTZ at h
  rw [hrev] at h
  simp only [decide_True, Bool.true_or, if_true, List.reverse_reverse] at h
  cases hb : pBody ys with
  | none => rw [hb] at h; simp [p2, digit?] at h
  | some v =>
    rw [hb] at h
    obtain ⟨y, mo, d, hh, mi, s⟩ := v
    simp [p2, digit?] at h
    rw [← h]

/-- **C7.** Window-bound timestamp parsing is total and never aborts the
request: (1) every successful parse is timezone-aware; (2) a string
ending in the UTC marker `Z` parses, if at all, to offset `+00:00`;
(3) a parseable string lacking any offset is assigned UTC; (4)/(5) an
unparsable string yields `none`, which the engine treats as an absent
(open) bound; and (6) the summary call always returns `status = "ok"`
with no error, for every window. -/
theorem C7_parse_never_fails :
    (∀ ts dt, parse_iso ts = some dt → dt.off.isSome = true) ∧
    (∀ ts dt, endsWithZ ts = true → parse_iso ts = some dt → dt.off = some 0) ∧
    (∀ ts dt, endsWithZ ts = false → fromisoformat ts = some dt → dt.off = none →
      parse_iso ts = some { dt with off := some 0 }) ∧
    (∀ ts, endsWithZ ts = false → fromisoformat ts = none → parse_iso ts = none) ∧
    (∀ ts, endsWithZ ts = true → fromisoformat (replaceZ ts) = none → parse_iso ts = none) ∧
    (∀ bank w currency traceId,
      (bank_window_summary_tool bank w currency traceId).status = "ok" ∧
      (bank_window_summary_tool bank w currency traceId).error = none) := by
  have hz : ∀ ts dt, endsWithZ ts = true → parse_iso ts = some dt → dt.off = some 0 := by
    intro ts dt hets hp
    obtain ⟨xs, rfl⟩ := endsWithZ_exists_concat hets
    unfold parse_iso at hp
    rw [if_pos hets] at hp
    rw [replaceZ_append] at hp
    exact fromisoformat_utc_suffix _ _ (by simpa [replaceZ] using hp)
  refine ⟨?_, hz, ?_, ?_, ?_, ?_⟩
  · intro ts dt hp
    cases hets : endsWithZ ts with
    | true => rw [hz ts dt hets hp]; rfl
    | false =>
      unfold parse_iso at hp
      rw [if_neg (by simp [hets])] at hp
      cases hf : fromisoformat ts with
      | none => rw [hf] at hp; exact absurd hp (by simp)
      | some dt2 =>
        rw [hf] at hp
        dsimp only at hp
        cases hoff : dt2.off with
        | none => rw [hoff] at hp; cases hp; rfl
        | some o => rw [hoff] at hp; cases hp; rw [hoff]; rfl
  · intro ts dt hets hf hoff
    unfold parse_iso
    rw [if_neg (by simp [hets]), hf]
    dsimp only
    rw [hoff]
  · intro ts hets hf
    unfold parse_iso
    rw [if_neg (by simp [hets]), hf]
  · intro ts hets hf
    unfold parse_iso
    rw [if_pos hets]
    exact hf
  · intro bank w currency traceId
    exact ⟨rfl, rfl⟩

/-- Witness for C7 at concrete strings: a `Z`-suffixed timestamp parses
to UTC offset `0`, and an unparsable bound string parses to `none`. -/
theorem C7_witness :
    (some (0 : ℤ) : Option ℤ).isSome = true ∧ parse_iso "not a timestamp".toList = none := by
  constructor
  · have h := C7_parse_never_fails.1 "2025-08-28T14:45:00Z".toList
      ⟨2025, 8, 28, 14, 45, 0, some 0⟩ (by with_unfolding_all rfl)
    simpa using h
  · exact C7_parse_never_fails.2.2.2.1 "not a timestamp".toList rfl (by with_unfolding_all rfl)

/-! ## Rounding lemmas -/

theorem ratFloor_eq (q : ℚ) : Rat.floor q = ⌊q⌋ := by
  rw [Rat.floor_def']
  rw [Rat.floor_def]

theorem r2int_mono {a b : ℚ} (h : a ≤ b) : r2int a ≤ r2int b := by
  unfold r2int
  simp only [ratFloor_eq]
  have hf : ⌊a * 100⌋ ≤ ⌊b * 100⌋ := Int.floor_le_floor (by linarith)
  have hfa : (⌊a * 100⌋ : ℚ) ≤ a * 100 := Int.floor_le _
  have hfb : (⌊b * 100⌋ : ℚ) ≤ b * 100 := Int.floor_le _
  rcases eq_or_lt_of_le hf with heq | hlt
  · have hr : a * 100 - (⌊a * 100⌋ : ℚ) ≤ b * 100 - (⌊b * 100⌋ : ℚ) := by
      rw [← heq]
      have : a * 100 ≤ b * 100 := by linarith
      linarith
    rw [← heq]
    rw [← heq] at hr
    split_ifs <;> first | omega | linarith
  · split_ifs <;> omega

theorem round2_mono {a b : ℚ} (h : a ≤ b) : round2 a ≤ round2 b := by
  unfold round2
  have h1 := r2int_mono h
  have h2 : (r2int a : ℚ) ≤ (r2int b : ℚ) := by exact_mod_cast h1
  linarith

theorem round2_500 : round2 500 = 500 := by with_unfolding_all rfl

theorem round2_zero : round2 0 = 0 := by with_unfolding_all rfl

/-! ## C2: totals versus bucket sums -/

/-- **C2 counterexample.** At `cexBankRounding` with the open window,
`totals.spend = 2.01` while the displayed (individually rounded)
`byMerchant` and `byCategory` spends sum to `2.00`. -/
theorem C2_counterexample :
    ¬ ((bank_window_summary_tool cexBankRounding none "USD" none).findings.totals.spend =
        (((bank_window_summary_tool cexBankRounding none "USD" none).findings.byMerchant.map
          Bucket.spend).sum) ∧
      (bank_window_summary_tool cexBankRounding none "USD" none).findings.totals.spend =
        (((bank_window_summary_tool cexBankRounding none "USD" none).findings.byCategory.map
          Bucket.spend).sum)) :=
  of_decide_eq_true (by with_unfolding_all rfl)

/-- **C2 amended.** The conservation law holds before display rounding:
the unrounded per-merchant spends and the unrounded per-category spends
each sum to the total admitted magnitude, and `totals.spend` is the
2-decimal rounding of that common sum; the returned bucket `spend`
fields are the individually rounded images of the sorted unrounded
buckets (so their sum may differ from `totals.spend` by rounding). -/
theorem C2_amended_sums (bank : BankData) (window : Option Window)
    (currency : String) (traceId : Option String) :
    ((bucketsBy merchKey (admittedTx bank window)).map Bucket.spend).sum =
      ((admittedTx bank window).map amtF).sum ∧
    ((bucketsBy catKey (admittedTx bank window)).map Bucket.spend).sum =
      ((admittedTx bank window).map amtF).sum ∧
    (bank_window_summary_tool bank window currency traceId).findings.totals.spend =
      round2 (((bucketsBy merchKey (admittedTx bank window)).map Bucket.spend).sum) ∧
    (bank_window_summary_tool bank window currency traceId).findings.totals.spend =
      round2 (((bucketsBy catKey (admittedTx bank window)).map Bucket.spend).sum) ∧
    (bank_window_summary_tool bank window currency traceId).findings.byMerchant =
      (sortDesc Bucket.spend (bucketsBy merchKey (admittedTx bank window))).map roundB ∧
    (bank_window_summary_tool bank window currency traceId).findings.byCategory =
      (sortDesc Bucket.spend (bucketsBy catKey (admittedTx bank window))).map roundB := by
  refine ⟨bucketsBy_spend_sum _ _, bucketsBy_spend_sum _ _, ?_, ?_, rfl, rfl⟩
  · rw [bucketsBy_spend_sum]
    rfl
  · rw [bucketsBy_spend_sum]
    rfl

/-! ## C8: malformed or empty ledgers degrade to an empty report -/

/-- **C8.** A ledger with no `user.accounts` structure, or whose
accounts carry no transactions and no recurring payments, produces
`status = "ok"`, no error, totals `{spend: 0.0, count: 0}`, and empty
`byMerchant`, `byCategory`, `recurring`, and `anomalies`. -/
theorem C8_empty_ledger (bank : BankData) (window : Option Window)
    (currency : String) (traceId : Option String)
    (h : bank.user = none ∨ ∀ acct ∈ accountsOf bank,
      acct.transactions.getD [] = [] ∧ acct.recurring_payments.getD [] = []) :
    (bank_window_summary_tool bank window currency traceId).status = "ok" ∧
    (bank_window_summary_tool bank window currency traceId).error = none ∧
    (bank_window_summary_tool bank window currency traceId).findings.totals = ⟨0, 0⟩ ∧
    (bank_window_summary_tool bank window currency traceId).findings.byMerchant = [] ∧
    (bank_window_summary_tool bank window currency traceId).findings.byCategory = [] ∧
    (bank_window_summary_tool bank window currency traceId).findings.recurring = [] ∧
    (bank_window_summary_tool bank window currency traceId).findings.anomalies = [] := by
  have hflat : flatten_txns bank = [] := by
    unfold flatten_txns
    rw [List.flatMap_eq_nil_iff]
    intro acct hacct
    rcases h with h | h
    · exact absurd hacct (by simp [accountsOf, h])
    · rw [(h acct hacct).1]
      rfl
  have hrec : recurringOf bank = [] := by
    unfold recurringOf
    rw [List.flatMap_eq_nil_iff]
    intro acct hacct
    rcases h with h | h
    · exact absurd hacct (by simp [accountsOf, h])
    · rw [(h acct hacct).2]
      rfl
  have hadm : admittedOf (flatten_txns bank) (sinceBound window) (untilBound window) = [] := by
    rw [hflat]
    rfl
  refine ⟨rfl, rfl, ?_, ?_, ?_, ?_, ?_⟩
  · show (⟨round2 ((admittedOf (flatten_txns bank) (sinceBound window)
      (untilBound window)).map amtF).sum, _⟩ : Totals) = ⟨0, 0⟩
    rw [hadm]
    simp [round2_zero]
  · show (sortDesc Bucket.spend (bucketsBy merchKey (admittedOf (flatten_txns bank)
      (sinceBound window) (untilBound window)))).map roundB = []
    rw [hadm]
    rfl
  · show (sortDesc Bucket.spend (bucketsBy catKey (admittedOf (flatten_txns bank)
      (sinceBound window) (untilBound window)))).map roundB = []
    rw [hadm]
    rfl
  · show (recurringOf bank).filter _ = []
    rw [hrec]
    rfl
  · show anomaliesOf (admittedOf (flatten_txns bank) (sinceBound window)
      (untilBound window)) = []
    rw [hadm]
    rfl

/-- Witness for C8: a ledger whose JSON has no `user` key at all. -/
theorem C8_witness :
    (bank_window_summary_tool ⟨none⟩ none "USD" none).status = "ok" ∧
    (bank_window_summary_tool ⟨none⟩ none "USD" none).findings.totals = ⟨0, 0⟩ := by
  have h := C8_empty_ledger ⟨none⟩ none "USD" none (Or.inl rfl)
  exact ⟨h.1, h.2.2.1⟩

/-! ## C3: anomaly detection -/

theorem pvar_nonneg (ds : List ℚ) : 0 ≤ pvarOf ds := by
  unfold pvarOf
  split_ifs
  · apply div_nonneg
    · apply List.sum_nonneg
      intro x hx
      simp only [List.mem_map] at hx
      obtain ⟨y, _, rfl⟩ := hx
      positivity
    · positivity
  · exact le_refl 0

/-- `anomalyTest a m v` decides exactly `a ≥ max(m + 2·√v, 500)` over the
reals, which is the source's `amt >= max(mean + 2 * std, 500.0)`. -/
theorem anomalyTest_iff_real (a m v : ℚ) (hv : 0 ≤ v) :
    (anomalyTest a m v = true ↔
      ((500 : ℝ) ≤ (a : ℝ) ∧ (m : ℝ) + 2 * Real.sqrt (v : ℝ) ≤ (a : ℝ))) := by
  have hv' : (0 : ℝ) ≤ (v : ℝ) := by exact_mod_cast hv
  have hsq : Real.sqrt (4 * (v : ℝ)) = 2 * Real.sqrt (v : ℝ) := by
    rw [show (4 : ℝ) * (v : ℝ) = 2 ^ 2 * (v : ℝ) by ring,
      Real.sqrt_mul (by positivity), Real.sqrt_sq (by norm_num)]
  unfold anomalyTest
  simp only [Bool.and_eq_true, decide_eq_true_eq]
  constructor
  · rintro ⟨⟨h500, hm⟩, hsqr⟩
    have h500' : (500 : ℝ) ≤ (a : ℝ) := by exact_mod_cast h500
    have hm' : (m : ℝ) ≤ (a : ℝ) := by exact_mod_cast hm
    have hsqr' : 4 * (v : ℝ) ≤ ((a : ℝ) - (m : ℝ)) ^ 2 := by
      exact_mod_cast hsqr
    refine ⟨h500', ?_⟩
    have h1 : Real.sqrt (4 * (v : ℝ)) ≤ Real.sqrt (((a : ℝ) - (m : ℝ)) ^ 2) :=
      Real.sqrt_le_sqrt hsqr'
    rw [hsq, Real.sqrt_sq (by linarith)] at h1
    linarith
  · rintro ⟨h500', hstd⟩
    have hs0 : (0 : ℝ) ≤ Real.sqrt (v : ℝ) := Real.sqrt_nonneg _
    have h500 : (500 : ℚ) ≤ a := by exact_mod_cast h500'
    have hm : (m : ℚ) ≤ a := by
      have : (m : ℝ) ≤ (a : ℝ) := by linarith
      exact_mod_cast this
    refine ⟨⟨h500, hm⟩, ?_⟩
    have h2 : 2 * Real.sqrt (v : ℝ) ≤ (a : ℝ) - (m : ℝ) := by linarith
    have h3 : (2 * Real.sqrt (v : ℝ)) ^ 2 ≤ ((a : ℝ) - (m : ℝ)) ^ 2 :=
      pow_le_pow_left (by positivity) h2 2
    have h4 : (2 * Real.sqrt (v : ℝ)) ^ 2 = 4 * (v : ℝ) := by
      rw [mul_pow, Real.sq_sqrt hv']
      norm_num
    rw [h4] at h3
    exact_mod_cast h3

/-- **C3.** For a non-empty admitted set: the anomalies are exactly the
threshold-passing members of the first 10 entries of the stable
descending-magnitude ordering of the admitted records (a sorted
permutation of the admitted set, so its first 10 entries are the 10
largest magnitudes), where the threshold test decides
`amt ≥ max(mean + 2·pstdev, 500.0)` over the reals with `pstdev = 0`
for fewer than two samples; anomaly records appear in descending
display-amount order, every anomaly's amount is at least 500, and for
a single admitted record the test degenerates to
`amt ≥ max(mean, 500)`. -/
theorem C3_anomalies (bank : BankData) (window : Option Window)
    (currency : String) (traceId : Option String)
    (h : admittedTx bank window ≠ []) :
    (bank_window_summary_tool bank window currency traceId).findings.anomalies =
      (((sortDesc amtF (admittedTx bank window)).take 10).filter fun ft =>
        anomalyTest (amtF ft) (meanOf ((admittedTx bank window).map amtF))
          (pvarOf ((admittedTx bank window).map amtF))).map mkAnom ∧
    (∀ ft : FlatTxn,
      anomalyTest (amtF ft) (meanOf ((admittedTx bank window).map amtF))
          (pvarOf ((admittedTx bank window).map amtF)) = true ↔
        ((500 : ℝ) ≤ (amtF ft : ℝ) ∧
          ((meanOf ((admittedTx bank window).map amtF) : ℝ) +
            2 * Real.sqrt ((pvarOf ((admittedTx bank window).map amtF)) : ℝ) ≤
              (amtF ft : ℝ)))) ∧
    (sortDesc amtF (admittedTx bank window)).Perm (admittedTx bank window) ∧
    List.Pairwise (fun x y => amtF y ≤ amtF x) (sortDesc amtF (admittedTx bank window)) ∧
    List.Pairwise (fun x y => y.amount ≤ x.amount)
      (bank_window_summary_tool bank window currency traceId).findings.anomalies ∧
    (∀ a ∈ (bank_window_summary_tool bank window currency traceId).findings.anomalies,
      (500 : ℚ) ≤ a.amount) ∧
    ((admittedTx bank window).length = 1 →
      ∀ ft : FlatTxn,
        (anomalyTest (amtF ft) (meanOf ((admittedTx bank window).map amtF))
            (pvarOf ((admittedTx bank window).map amtF)) = true ↔
          max (meanOf ((admittedTx bank window).map amtF)) 500 ≤ amtF ft)) := by
  have heq : (bank_window_summary_tool bank window currency traceId).findings.anomalies =
      (((sortDesc amtF (admittedTx bank window)).take 10).filter fun ft =>
        anomalyTest (amtF ft) (meanOf ((admittedTx bank window).map amtF))
          (pvarOf ((admittedTx bank window).map amtF))).map mkAnom := by
    show anomaliesOf (admittedTx bank window) = _
    unfold anomaliesOf
    rw [if_neg h]
  have hsorted : List.Pairwise (fun x y => amtF y ≤ amtF x)
      (sortDesc amtF (admittedTx bank window)) :=
    sortDesc_sorted amtF _
  refine ⟨heq, fun ft => anomalyTest_iff_real _ _ _ (pvar_nonneg _), sortDesc_perm _ _,
    hsorted, ?_, ?_, ?_⟩
  · rw [heq]
    have h1 : List.Pairwise (fun x y => amtF y ≤ amtF x)
        ((sortDesc amtF (admittedTx bank window)).take 10) :=
      hsorted.sublist (List.take_sublist _ _)
    have h2 : List.Pairwise (fun x y => amtF y ≤ amtF x)
        (((sortDesc amtF (admittedTx bank window)).take 10).filter fun ft =>
          anomalyTest (amtF ft) (meanOf ((admittedTx bank window).map amtF))
            (pvarOf ((admittedTx bank window).map amtF))) :=
      h1.sublist (List.filter_sublist _)
    exact h2.map mkAnom fun x y hxy => round2_mono hxy
  · intro a ha
    rw [heq] at ha
    simp only [List.mem_map, List.mem_filter] at ha
    obtain ⟨ft, ⟨_, htest⟩, rfl⟩ := ha
    have h500 : (500 : ℚ) ≤ amtF ft := by
      unfold anomalyTest at htest
      simp only [Bool.and_eq_true, decide_eq_true_eq] at htest
      exact htest.1.1
    calc (500 : ℚ) = round2 500 := round2_500.symm
      _ ≤ round2 (amtF ft) := round2_mono h500
  · intro hlen ft
    have hds : ((admittedTx bank window).map amtF).length = 1 := by
      rw [List.length_map, hlen]
    have hv : pvarOf ((admittedTx bank window).map amtF) = 0 := by
      unfold pvarOf
      rw [if_neg (by omega)]
    rw [hv]
    unfold anomalyTest
    simp only [Bool.and_eq_true, decide_eq_true_eq]
    rw [max_le_iff]
    constructor
    · rintro ⟨⟨h500, hm⟩, _⟩
      exact ⟨hm, h500⟩
    · rintro ⟨hm, h500⟩
      refine ⟨⟨h500, hm⟩, ?_⟩
      rw [mul_zero]
      positivity

/-- Witness for C3: a ledger with a single 600.00 debit flags it, and
the flagged anomaly's amount respects the 500 floor. -/
theorem C3_witness :
    (500 : ℚ) ≤ (mkAnom ⟨⟨some "2025-07-15T09:58:00".toList, none, some 600, some "debit",
      some "Purchase - A", some ⟨some "A", some "X"⟩, some "X"⟩,
        some "Everyday"⟩).amount := by
  have h := C3_anomalies
    ⟨some ⟨[⟨some "Everyday", some "checking",
      some [⟨some "2025-07-15T09:58:00".toList, none, some 600, some "debit",
              some "Purchase - A", some ⟨some "A", some "X"⟩, some "X"⟩], some []⟩]⟩⟩
    none "USD" none (of_decide_eq_true (by with_unfolding_all rfl))
  apply h.2.2.2.2.2.1
  rw [show (bank_window_summary_tool
      ⟨some ⟨[⟨some "Everyday", some "checking",
        some [⟨some "2025-07-15T09:58:00".toList, none, some 600, some "debit",
                some "Purchase - A", some ⟨some "A", some "X"⟩, some "X"⟩], some []⟩]⟩⟩
      none "USD" none).findings.anomalies =
    [mkAnom ⟨⟨some "2025-07-15T09:58:00".toList, none, some 600, some "debit",
      some "Purchase - A", some ⟨some "A", some "X"⟩, some "X"⟩, some "Everyday"⟩] by
      with_unfolding_all rfl]
  exact List.mem_singleton.mpr rfl

/-! ## C4: the two copies of the analytics function -/

theorem parse_iso_nil : parse_iso [] = none := rfl

theorem optParse_eq (o : Option (List Char)) : optParse o = parse_iso (o.getD []) := by
  cases o with
  | none => exact parse_iso_nil.symm
  | some s =>
    show (if s = [] then none else parse_iso s) = parse_iso s
    split_ifs with hs
    · rw [hs]
      exact parse_iso_nil.symm
    · rfl

theorem sinceBound_eq (w : Option Window) : sinceBound w = sinceBoundD w := by
  cases w with
  | none => exact parse_iso_nil.symm
  | some win => exact optParse_eq win.since

theorem untilBound_eq (w : Option Window) : untilBound w = untilBoundD w := by
  cases w with
  | none => exact parse_iso_nil.symm
  | some win => exact optParse_eq win.until_

theorem effDT_eq (t : Txn) : effDT t = effDT_D t := optParse_eq (effTs t)

theorem admitPred_eq (sinceDT untilDT : Option DT) (ft : FlatTxn) :
    admitPred sinceDT untilDT ft = admitPredD sinceDT untilDT ft := by
  unfold admitPred admitPredD
  rw [effDT_eq]

/-- **C4 counterexample.** On `cexBankOrder` (identical inline ledger,
window, currency, traceId) the two implementations disagree in the
`byMerchant` field, not only in `recurring`. -/
theorem C4_counterexample :
    (bank_window_summary_tool cexBankOrder none "USD" none).findings.byMerchant ≠
      (bank_window_summary cexBankOrder none "USD" none).findings.byMerchant :=
  of_decide_eq_true (by with_unfolding_all rfl)

/-- **C4 amended.** For every identical inline ledger, window, currency
and traceId, the two copies agree on `status`, `totals`, `anomalies`,
`summary`, `sms`, `error` and `traceId`; their `byMerchant` and
`byCategory` sequences hold the same buckets but only up to order
(permutations — the copies sort on unrounded versus rounded spend, so
orders can differ when rounding creates ties); and the A2A `recurring`
is exactly the director `recurring` filtered by the window-or-absent
next-charge test. -/
theorem C4_amended (bank : BankData) (window : Option Window)
    (currency : String) (traceId : Option String) :
    (bank_window_summary_tool bank window currency traceId).status =
      (bank_window_summary bank window currency traceId).status ∧
    (bank_window_summary_tool bank window currency traceId).findings.totals =
      (bank_window_summary bank window currency traceId).findings.totals ∧
    (bank_window_summary_tool bank window currency traceId).findings.anomalies =
      (bank_window_summary bank window currency traceId).findings.anomalies ∧
    (bank_window_summary_tool bank window currency traceId).findings.byMerchant.Perm
      (bank_window_summary bank window currency traceId).findings.byMerchant ∧
    (bank_window_summary_tool bank window currency traceId).findings.byCategory.Perm
      (bank_window_summary bank window currency traceId).findings.byCategory ∧
    (bank_window_summary_tool bank window currency traceId).summary =
      (bank_window_summary bank window currency traceId).summary ∧
    (bank_window_summary_tool bank window currency traceId).sms =
      (bank_window_summary bank window currency traceId).sms ∧
    (bank_window_summary_tool bank window currency traceId).error =
      (bank_window_summary bank window currency traceId).error ∧
    (bank_window_summary_tool bank window currency traceId).traceId =
      (bank_window_summary bank window currency traceId).traceId ∧
    (bank_window_summary_tool bank window currency traceId).findings.recurring =
      (bank_window_summary bank window currency traceId).findings.recurring.filter
        (rcKeep (sinceBound window) (untilBound window)) := by
  have hADM2 : admittedOf (flatten_txns bank) (sinceBoundD window) (untilBoundD window) =
      (flatten_txns bank).filter (admitPredD (sinceBoundD window) (untilBoundD window)) := by
    unfold admittedOf
    exact List.filter_congr fun ft _ => admitPred_eq _ _ ft
  have hADM : admittedOf (flatten_txns bank) (sinceBound window) (untilBound window) =
      (flatten_txns bank).filter (admitPredD (sinceBoundD window) (untilBoundD window)) := by
    rw [sinceBound_eq, untilBound_eq]
    exact hADM2
  refine ⟨rfl, ?_, ?_, ?_, ?_, ?_, ?_, rfl, rfl, rfl⟩
  · show (⟨round2 ((admittedOf (flatten_txns bank) (sinceBound window)
        (untilBound window)).map amtF).sum, ((admittedOf (flatten_txns bank)
        (sinceBound window) (untilBound window)).map amtF).length⟩ : Totals) = _
    rw [hADM]
    rfl
  · show anomaliesOf (admittedOf (flatten_txns bank) (sinceBound window)
      (untilBound window)) = anomaliesOf ((flatten_txns bank).filter
      (admitPredD (sinceBoundD window) (untilBoundD window)))
    exact congrArg anomaliesOf hADM
  · show ((sortDesc Bucket.spend (bucketsBy merchKey (admittedOf (flatten_txns bank)
      (sinceBound window) (untilBound window)))).map roundB).Perm
      (sortDesc Bucket.spend ((bucketsBy merchKey ((flatten_txns bank).filter
        (admitPredD (sinceBoundD window) (untilBoundD window)))).map roundB))
    rw [hADM]
    exact ((sortDesc_perm _ _).map roundB).trans (sortDesc_perm _ _).symm
  · show ((sortDesc Bucket.spend (bucketsBy catKey (admittedOf (flatten_txns bank)
      (sinceBound window) (untilBound window)))).map roundB).Perm
      (sortDesc Bucket.spend ((bucketsBy catKey ((flatten_txns bank).filter
        (admitPredD (sinceBoundD window) (untilBoundD window)))).map roundB))
    rw [hADM]
    exact ((sortDesc_perm _ _).map roundB).trans (sortDesc_perm _ _).symm
  · show summaryText (captionOf (sinceBound window) (untilBound window)) _ _ _ =
      summaryText (captionOf (sinceBoundD window) (untilBoundD window)) _ _ _
    simp only [sinceBound_eq, untilBound_eq, hADM2]
  · show smsText (captionOf (sinceBound window) (untilBound window)) _ _ =
      smsText (captionOf (sinceBoundD window) (untilBoundD window)) _ _
    simp only [sinceBound_eq, untilBound_eq, hADM2]

/-! ## C5: the scoped recurring filter -/

/-- **C5 counterexample.** With a fully closed window, the scoped path
still returns the recurring payment whose `next_charge` is absent — a
record whose `nextChargeAt` does not fall within the window (it has no
parseable timestamp at all: `rcDT = none`). -/
theorem C5_counterexample :
    (bank_window_summary_tool cexBankRecurring
        (some ⟨some "2025-09-01T00:00:00".toList, some "2025-09-30T00:00:00".toList⟩)
        "USD" none).findings.recurring =
      [⟨some "Everyday", some "Gym", some (-10), some "monthly", none⟩] ∧
    rcDT ⟨some "Everyday", some "Gym", some (-10), some "monthly", none⟩ = none :=
  ⟨by with_unfolding_all rfl, by with_unfolding_all rfl⟩

/-- **C5 amended.** In the scoped path, the returned `recurring`
sequence contains exactly the recurring payments whose `next_charge`
parses to a timestamp inside the window, **together with** those whose
`next_charge` field is absent (`None`), which the source admits
unconditionally via `or r.get("next_charge") is None`. -/
theorem C5_amended (bank : BankData) (window : Option Window)
    (currency : String) (traceId : Option String) (r : RecOut) :
    r ∈ (bank_window_summary_tool bank window currency traceId).findings.recurring ↔
      r ∈ recurringOf bank ∧
        ((∃ dt, rcDT r = some dt ∧
            InWindowProp dt (sinceBound window) (untilBound window)) ∨
          r.next_charge = none) := by
  show r ∈ (recurringOf bank).filter (rcKeep (sinceBound window) (untilBound window)) ↔ _
  rw [List.mem_filter]
  unfold rcKeep
  rw [Bool.or_eq_true, in_window_iff]
  simp

/-- Witness for C5: the `next_charge`-less recurring payment is in the
output because its `next_charge` is absent, not because it is
in-window. -/
theorem C5_witness :
    (⟨some "Everyday", some "Gym", some (-10), some "monthly", none⟩ : RecOut) ∈
      (bank_window_summary_tool cexBankRecurring none "USD" none).findings.recurring := by
  refine (C5_amended cexBankRecurring none "USD" none _).mpr ⟨?_, Or.inr rfl⟩
  rw [show recurringOf cexBankRecurring =
    [⟨some "Everyday", some "Gym", some (-10), some "monthly", none⟩] by
      with_unfolding_all rfl]
  exact List.mem_singleton.mpr rfl

/-! ## C6: bucket ordering -/

theorem addBucket_keys (l : List Bucket) (k : String) (a : ℚ) :
    (addBucket l k a).map Bucket.key =
      if k ∈ l.map Bucket.key then l.map Bucket.key else l.map Bucket.key ++ [k] := by
  induction l with
  | nil => simp [addBucket]
  | cons b bs ih =>
    by_cases hb : b.key = k
    · simp [addBucket, hb]
    · have hb2 : ¬(k = b.key) := fun h => hb h.symm
      simp only [addBucket, if_neg hb, List.map_cons, ih, List.mem_cons]
      by_cases hk : k ∈ bs.map Bucket.key
      · simp [hk, hb2]
      · simp [hk, hb2]

theorem bucketsBy_keys_aux (key : Txn → String) (adm : List FlatTxn) :
    ∀ init : List Bucket,
      ((adm.foldl (fun l ft => addBucket l (key ft.txn) (amtF ft)) init).map Bucket.key) =
        (adm.map fun ft => key ft.txn).foldl
          (fun acc k => if k ∈ acc then acc else acc ++ [k]) (init.map Bucket.key) := by
  induction adm with
  | nil => intro init; rfl
  | cons ft fts ih =>
    intro init
    simp only [List.foldl_cons, List.map_cons]
    rw [ih, addBucket_keys]

/-- The bucket dict's key order is the order in which keys were first
seen during the aggregation pass. -/
theorem bucketsBy_keys (key : Txn → String) (adm : List FlatTxn) :
    (bucketsBy key adm).map Bucket.key = firstSeen (adm.map fun ft => key ft.txn) := by
  simpa using bucketsBy_keys_aux key adm []

/-- **C6.** The returned `byMerchant` and `byCategory` sequences are
sorted by non-increasing spend; any two buckets of equal accumulated
spend keep their relative order from the aggregation pass (stability),
and the aggregation pass lists buckets in first-seen key order. -/
theorem C6_sorted_stable (bank : BankData) (window : Option Window)
    (currency : String) (traceId : Option String) :
    List.Pairwise (fun x y => y.spend ≤ x.spend)
      (bank_window_summary_tool bank window currency traceId).findings.byMerchant ∧
    List.Pairwise (fun x y => y.spend ≤ x.spend)
      (bank_window_summary_tool bank window currency traceId).findings.byCategory ∧
    (∀ a b : Bucket, [a, b].Sublist (bucketsBy merchKey (admittedTx bank window)) →
      a.spend = b.spend →
      [roundB a, roundB b].Sublist
        (bank_window_summary_tool bank window currency traceId).findings.byMerchant) ∧
    (∀ a b : Bucket, [a, b].Sublist (bucketsBy catKey (admittedTx bank window)) →
      a.spend = b.spend →
      [roundB a, roundB b].Sublist
        (bank_window_summary_tool bank window currency traceId).findings.byCategory) ∧
    (bucketsBy merchKey (admittedTx bank window)).map Bucket.key =
      firstSeen ((admittedTx bank window).map fun ft => merchKey ft.txn) ∧
    (bucketsBy catKey (admittedTx bank window)).map Bucket.key =
      firstSeen ((admittedTx bank window).map fun ft => catKey ft.txn) := by
  refine ⟨?_, ?_, ?_, ?_, bucketsBy_keys _ _, bucketsBy_keys _ _⟩
  · exact (sortDesc_sorted Bucket.spend _).map roundB fun x y hxy => round2_mono hxy
  · exact (sortDesc_sorted Bucket.spend _).map roundB fun x y hxy => round2_mono hxy
  · intro a b hsub htie
    have hab : keyGE Bucket.spend a b := le_of_eq htie.symm
    exact (List.pair_sublist_insertionSort hab hsub).map roundB
  · intro a b hsub htie
    have hab : keyGE Bucket.spend a b := le_of_eq htie.symm
    exact (List.pair_sublist_insertionSort hab hsub).map roundB

set_option maxRecDepth 4000 in
/-- Witness for C6: on the equal-spend two-merchant ledger, the
first-seen pair survives the sort in order. -/
theorem C6_witness :
    [roundB ⟨"B", 5, 1⟩, roundB ⟨"A", 5, 1⟩].Sublist
      (bank_window_summary_tool cexBankTie none "USD" none).findings.byMerchant := by
  have h := C6_sorted_stable cexBankTie none "USD" none
  refine h.2.2.1 ⟨"B", 5, 1⟩ ⟨"A", 5, 1⟩ ?_ rfl
  rw [show bucketsBy merchKey (admittedTx cexBankTie none) =
    [⟨"B", 5, 1⟩, ⟨"A", 5, 1⟩] by with_unfolding_all rfl]

/-! ## C9: the router's injected daily window -/

theorem digit?_dch (k : ℕ) : digit? (dch k) = some (k % 10) := by
  have hlt : k % 10 < 10 := Nat.mod_lt _ (by norm_num)
  unfold dch
  generalize hm : k % 10 = m at hlt ⊢
  interval_cases m <;> rfl

theorem dch_ne_Z (k : ℕ) : dch k ≠ 'Z' := by
  unfold dch
  split <;> decide

theorem pD2_pad2 (n : ℕ) (h : n ≤ 99) (rest : List Char) :
    pD2 (pad2 n ++ rest) = some (n, rest) := by
  have e : 10 * (n / 10 % 10) + n % 10 = n := by omega
  simp [pad2, pD2, digit?_dch, e]

theorem pD4_pad4 (n : ℕ) (h : n ≤ 9999) (rest : List Char) :
    pD4 (pad4 n ++ rest) = some (n, rest) := by
  have e : 1000 * (n / 1000 % 10) + 100 * (n / 100 % 10) + 10 * (n / 10 % 10) + n % 10 = n := by
    omega
  simp [pad4, pD4, digit?_dch, e]

theorem pTime_pads (h mi s : ℕ) (hh : h ≤ 99) (hmi : mi ≤ 99) (hs : s ≤ 99) :
    pTime (pad2 h ++ ':' :: (pad2 mi ++ ':' :: pad2 s)) = some (h, mi, s) := by
  have h3 : pD2 (pad2 s) = some (s, []) := by
    simpa using pD2_pad2 s hs []
  simp only [pTime, pD2_pad2 h hh, pD2_pad2 mi hmi, h3]

theorem isoDT_reverse (d : Date) (h mi s : ℕ) :
    (isoDT d h mi s).reverse =
      dch s :: dch (s / 10) :: ':' :: dch mi :: dch (mi / 10) :: ':' ::
      dch h :: dch (h / 10) :: 'T' :: dch d.day :: dch (d.day / 10) :: '-' ::
      dch d.month :: dch (d.month / 10) :: '-' ::
      dch d.year :: dch (d.year / 10) :: dch (d.year / 100) :: [dch (d.year / 1000)] := by
  simp [isoDT, pad4, pad2]

theorem splitTZ_isoDT (d : Date) (h mi s : ℕ) :
    splitTZ (isoDT d h mi s) = (isoDT d h mi s, none) := by
  unfold splitTZ
  rw [isoDT_reverse]
  simp

theorem endsWithZ_isoDT (d : Date) (h mi s : ℕ) :
    endsWithZ (isoDT d h mi s) = false := by
  unfold endsWithZ
  rw [isoDT_reverse]
  simp [dch_ne_Z]

theorem daysInMonth_le (y : ℤ) (m : ℕ) : daysInMonth y m ≤ 31 := by
  unfold daysInMonth
  split_ifs <;> norm_num

theorem pBody_isoDT (d : Date) (h mi s : ℕ)
    (hy2 : d.year ≤ 9999) (hval : (1 ≤ d.year ∧ 1 ≤ d.month ∧ d.month ≤ 12 ∧
      1 ≤ d.day ∧ d.day ≤ daysInMonth (d.year : ℤ) d.month ∧
      h ≤ 23 ∧ mi ≤ 59 ∧ s ≤ 59)) :
    pBody (isoDT d h mi s) = some ((d.year : ℤ), d.month, d.day, h, mi, s) := by
  have hbody : isoDT d h mi s = pad4 d.year ++ '-' ::
      (pad2 d.month ++ '-' :: (pad2 d.day ++ 'T' ::
        (pad2 h ++ ':' :: (pad2 mi ++ ':' :: pad2 s)))) := by
    simp [isoDT]
  rw [hbody]
  unfold pBody
  simp only [pD4_pad4 d.year hy2, pD2_pad2 d.month (by omega),
    pD2_pad2 d.day (by have := daysInMonth_le (d.year : ℤ) d.month; omega),
    pTime_pads h mi s (by omega) (by omega) (by omega)]
  rw [if_pos hval]

theorem parse_iso_isoDT (d : Date) (h mi s : ℕ)
    (hy2 : d.year ≤ 9999) (hval : (1 ≤ d.year ∧ 1 ≤ d.month ∧ d.month ≤ 12 ∧
      1 ≤ d.day ∧ d.day ≤ daysInMonth (d.year : ℤ) d.month ∧
      h ≤ 23 ∧ mi ≤ 59 ∧ s ≤ 59)) :
    parse_iso (isoDT d h mi s) =
      some ⟨(d.year : ℤ), d.month, d.day, h, mi, s, some 0⟩ := by
  unfold parse_iso
  rw [endsWithZ_isoDT]
  simp only [Bool.false_eq_true, if_false]
  have hf : fromisoformat (isoDT d h mi s) =
      some ⟨(d.year : ℤ), d.month, d.day, h, mi, s, none⟩ := by
    unfold fromisoformat
    rw [splitTZ_isoDT]
    simp only [pBody_isoDT d h mi s hy2 hval]
  rw [hf]

/-- **C9.** In daily-report mode, when the inbound payload carries no
window, the router hands the fan-out dispatch exactly one payload,
identical to the inbound one except that its window is the single
injected `TimeWindow`; that window's bounds are the ISO prints of
today 00:00:00 and today 23:59:59 (local wall clock), and they parse
back to exactly those two instants of today. -/
theorem C9_daily_window (p : Payload) (today : Date)
    (hq : DAILY_KWS.any (fun kw => listContains kw.toList (routeQuery p).toList) = true)
    (hw : p.window = none)
    (hy2 : today.year ≤ 9999)
    (hval : 1 ≤ today.year ∧ 1 ≤ today.month ∧ today.month ≤ 12 ∧
      1 ≤ today.day ∧ today.day ≤ daysInMonth (today.year : ℤ) today.month) :
    route_daily_dispatch today p = some { p with window := some (today_window today) } ∧
    today_window today = ⟨some (isoDT today 0 0 0), some (isoDT today 23 59 59)⟩ ∧
    parse_iso (isoDT today 0 0 0) =
      some ⟨(today.year : ℤ), today.month, today.day, 0, 0, 0, some 0⟩ ∧
    parse_iso (isoDT today 23 59 59) =
      some ⟨(today.year : ℤ), today.month, today.day, 23, 59, 59, some 0⟩ := by
  obtain ⟨h1, h2, h3, h4, h5⟩ := hval
  refine ⟨?_, rfl,
    parse_iso_isoDT today 0 0 0 hy2 ⟨h1, h2, h3, h4, h5, by omega, by omega, by omega⟩,
    parse_iso_isoDT today 23 59 59 hy2 ⟨h1, h2, h3, h4, h5, by omega, by omega, by omega⟩⟩
  unfold route_daily_dispatch
  simp only [hq, if_true, ensure_daily_window, hw]

/-- Witness for C9 at a concrete daily-report request on 2025-09-27. -/
theorem C9_witness :
    route_daily_dispatch ⟨2025, 9, 27⟩
        ⟨some "show me a daily report", none, some "America/New_York", some "USD",
          some "daily-001"⟩ =
      some ⟨some "show me a daily report",
        some (today_window ⟨2025, 9, 27⟩), some "America/New_York", some "USD",
        some "daily-001"⟩ := by
  have h := C9_daily_window
    ⟨some "show me a daily report", none, some "America/New_York", some "USD",
      some "daily-001"⟩ ⟨2025, 9, 27⟩
    (by with_unfolding_all rfl) rfl (by norm_num)
    ⟨by norm_num, by norm_num, by norm_num, by norm_num, by norm_num [daysInMonth, isLeap]⟩
  exact h.1

end Shellhacks
